import Mathlib

/-!
Shallow embedding of the CatBoost GPU oblivious-tree structure searcher
(`catboost/cuda/methods/oblivious_tree_structure_searcher.h`) and the target
classifier (`catboost/libs/model/target_classifier.h`), together with proofs
of the spec claims about them.

The file is organised as: all definitions first (the embedding of the data
model and operations, translated from the source), then the theorems.
-/

/-- `TTargetClassifier` (target_classifier.h, lines 6-33): wraps the vector of
class `Borders`.  The element type and the `>` comparison of the source
(`double` target against `float` borders) are kept abstract as a Boolean
comparison `gt`, which in particular covers IEEE semantics for NaN (where
`gt` is constantly false) and infinities. -/
structure TTargetClassifier (α : Type) where
  Borders : List α

/-- The `while (resClass < Borders.ysize() && target > Borders[resClass])
++resClass` loop of `TTargetClassifier::GetTargetClass` (lines 9-12), with the
C++ short-circuit `&&` rendered as nested conditionals. -/
def TTargetClassifier.GetTargetClassLoop (gt : α → α → Bool) (target : α)
    (borders : List α) (resClass : Nat) : Nat :=
  if h : resClass < borders.length then
    if gt target (borders.get ⟨resClass, h⟩) then
      TTargetClassifier.GetTargetClassLoop gt target borders (resClass + 1)
    else resClass
  else resClass
termination_by borders.length - resClass
decreasing_by omega

/-- `TTargetClassifier::GetTargetClass` (lines 8-14): starts the loop at
`resClass = 0` and returns its final value. -/
def TTargetClassifier.GetTargetClass (c : TTargetClassifier α)
    (gt : α → α → Bool) (target : α) : Nat :=
  TTargetClassifier.GetTargetClassLoop gt target c.Borders 0

/-- `TTargetClassifier::GetClassesCount` (lines 16-18): `Borders.ysize() + 1`. -/
def TTargetClassifier.GetClassesCount (c : TTargetClassifier α) : Nat :=
  c.Borders.length + 1

/-- Modelled from the spec: `IntLog2`, used by `CreateSubsets` to size the
partitions table, lives in the repository's cuda utilities, outside the given
sources.  The partitions table must be able to address every initial
partition in the low bits of a bin (spec 4.1: sized for the maximum possible
leaf count), so `IntLog2 x` is the number of bits needed to address `x`
values: the bit-width of `x - 1`, i.e. the ceiling of the base-2 logarithm
of `x`.  The fuel argument of this auxiliary only makes the recursion
structural; `IntLog2` always supplies enough fuel. -/
def bitWidthFuel : Nat → Nat → Nat
  | 0, _ => 0
  | fuel + 1, n => if n = 0 then 0 else bitWidthFuel fuel (n / 2) + 1

/-- Modelled from the spec: see `bitWidthFuel`.  `IntLog2 x` is the ceiling
of `log2 x` (and `0` for `x ≤ 1`). -/
def IntLog2 (x : Nat) : Nat := bitWidthFuel x (x - 1)

/-- `EBinSplitType` (models library): the two split kinds used by the
searcher, `TakeGreater` for ordinal thresholds and `TakeBin` for one-hot
categorical bins (searcher lines 400-406). -/
inductive EBinSplitType where
  | TakeGreater
  | TakeBin
deriving DecidableEq, Repr, Inhabited

/-- `TBinarySplit`: feature id, bin index and split type, as assigned at
searcher lines 395-396 and 400-404. -/
structure TBinarySplit where
  FeatureId : Nat
  BinIdx : Nat
  SplitType : EBinSplitType
deriving DecidableEq, Repr, Inhabited

/-- `TFeatureTensor`: the categorical-feature combination underlying a CTR;
`GetCatFeatures` and `GetSplits` are the two accessors the searcher uses
(line 152). -/
structure TFeatureTensor where
  CatFeatures : List Nat
  Splits : List TBinarySplit
deriving DecidableEq, Repr, Inhabited

/-- `TCtr`: value identity of a CTR — a feature tensor plus a configuration
(statistic type and prior), abstracted to a numeric configuration code. -/
structure TCtr where
  FeatureTensor : TFeatureTensor
  Configuration : Nat
deriving DecidableEq, Repr, Inhabited

/-- `TBestSplitProperties`: the `(featureId, binId, score)` triple produced
by a score helper and consumed by the best-of reduction (searcher lines
100-114, 155-194, 332-334).  Scores are `double` in the source; they are
modelled as rationals, which supports exactly the comparisons the searcher
performs (the sentinel "no candidate" outcome is a `FeatureId` of
`2^32 - 1`, i.e. `static_cast<ui32>(-1)`, not a score value). -/
structure TBestSplitProperties where
  FeatureId : Nat
  BinId : Nat
  Score : ℚ
deriving DecidableEq, Repr

/-- `TDataPartition`: `{Offset, Size}` contiguous document range, as pushed
by the initial-bin writers (searcher lines 551-553, 563-566). -/
structure TDataPartition where
  Offset : Nat
  Size : Nat
deriving DecidableEq, Repr, Inhabited

/-- The task-mode configuration of `TObliviousTreeStructureSearcher`
(lines 740-742): the list of fold-based tasks and the optional single-task
target.  Targets are abstracted to the sizes of their index buffers, the
only attribute the modelled methods read (`GetIndices().GetObjectsSlice()
.Size()`); a fold-based task is its `(learn, test)` pair of sizes. -/
structure TObliviousTreeStructureSearcher where
  FoldBasedTasks : List (Nat × Nat)
  SingleTaskTarget : Option Nat
deriving DecidableEq, Repr

/-- `TObliviousTreeStructureSearcher::AddTask` (lines 235-241):
`CB_ENSURE(SingleTaskTarget == nullptr, ...)`, then appends the task. -/
def TObliviousTreeStructureSearcher.AddTask (s : TObliviousTreeStructureSearcher)
    (learnSize testSize : Nat) : Except String TObliviousTreeStructureSearcher :=
  if s.SingleTaskTarget = none then
    .ok { s with FoldBasedTasks := s.FoldBasedTasks ++ [(learnSize, testSize)] }
  else .error "We can't mix learn/test splits and full estimation"

/-- `TObliviousTreeStructureSearcher::SetTarget` (lines 243-248): two
`CB_ENSURE`s, then stores the single-task target. -/
def TObliviousTreeStructureSearcher.SetTarget (s : TObliviousTreeStructureSearcher)
    (size : Nat) : Except String TObliviousTreeStructureSearcher :=
  if s.SingleTaskTarget = none then
    if s.FoldBasedTasks.length = 0 then
      .ok { s with SingleTaskTarget := some size }
    else .error "Can't mix foldBased and singleTask targets"
  else .error "Target already was set"

/-- The entry precondition of `Fit` (line 256):
`CB_ENSURE(FoldBasedTasks.size() || SingleTaskTarget)`. -/
def TObliviousTreeStructureSearcher.FitModeCheck
    (s : TObliviousTreeStructureSearcher) : Except String Unit :=
  if s.FoldBasedTasks.length ≠ 0 ∨ s.SingleTaskTarget ≠ none then .ok ()
  else .error "FoldBasedTasks.size() || SingleTaskTarget"

/-- A sequence of `AddTask` calls, threading the `CB_ENSURE` failures. -/
def TObliviousTreeStructureSearcher.AddTaskSeq (s : TObliviousTreeStructureSearcher) :
    List (Nat × Nat) → Except String TObliviousTreeStructureSearcher
  | [] => .ok s
  | (l, t) :: rest =>
    match s.AddTask l t with
    | .ok s2 => s2.AddTaskSeq rest
    | .error e => .error e

/-- The loop body of `WriteFoldBasedInitialBins` (lines 532-558): per task,
fill `learn` bins with `currentBin` and `test` bins with `currentBin + 1`,
record the two `{cursor, size}` partitions, advance `cursor` and
`currentBin += 2`. -/
def writeFoldBasedInitialBinsLoop :
    List (Nat × Nat) → Nat → Nat → List Nat × List TDataPartition
  | [], _, _ => ([], [])
  | (learn, test) :: rest, cursor, currentBin =>
    let r := writeFoldBasedInitialBinsLoop rest (cursor + learn + test) (currentBin + 2)
    (List.replicate learn currentBin ++ List.replicate test (currentBin + 1) ++ r.1,
     ⟨cursor, learn⟩ :: ⟨cursor + learn, test⟩ :: r.2)

/-- `TObliviousTreeStructureSearcher::WriteFoldBasedInitialBins`
(lines 532-558): returns the filled bins buffer and the partitions vector
(two partitions per fold-based task). -/
def TObliviousTreeStructureSearcher.WriteFoldBasedInitialBins
    (s : TObliviousTreeStructureSearcher) : List Nat × List TDataPartition :=
  writeFoldBasedInitialBinsLoop s.FoldBasedTasks 0 0

/-- `TObliviousTreeStructureSearcher::WriteSingleTaskInitialBins`
(lines 560-569): one partition `{0, size}`, bins buffer filled with `0`. -/
def TObliviousTreeStructureSearcher.WriteSingleTaskInitialBins
    (size : Nat) : List Nat × List TDataPartition :=
  (List.replicate size 0, [⟨0, size⟩])

/-- `TOptimizationSubsets` as populated by `CreateSubsets` (lines 470-485).
The `Partitions` device buffer is opaque device memory; what the searcher
fixes is its allocated object count `maxPartCount`
(`TMirrorBuffer<TDataPartition>::Create(TMirrorMapping(maxPartCount))`),
modelled as `PartitionsSize`. -/
structure TOptimizationSubsets where
  Bins : List Nat
  Indices : List Nat
  CurrentDepth : Nat
  FoldCount : Nat
  FoldBits : Nat
  PartitionsSize : Nat
deriving DecidableEq, Repr

/-- `TObliviousTreeStructureSearcher::CreateSubsets` (lines 470-485):
writes initial bins (fold-based when `SingleTaskTarget == nullptr`, single
otherwise), sets `FoldCount` to the number of initial partitions,
`FoldBits = IntLog2(FoldCount)`, `Indices` to the identity sequence
(`MakeSequence`), and allocates the partitions table with
`maxPartCount = 1 << (FoldBits + maxDepth)`.  The `ui32` width of
`maxPartCount` is not modelled: the C++ shift is undefined behaviour before
it could wrap, and the option layer caps `maxDepth` far below 31. -/
def TObliviousTreeStructureSearcher.CreateSubsets
    (s : TObliviousTreeStructureSearcher) (maxDepth : Nat) : TOptimizationSubsets :=
  let wr := match s.SingleTaskTarget with
    | none => s.WriteFoldBasedInitialBins
    | some sz => TObliviousTreeStructureSearcher.WriteSingleTaskInitialBins sz
  let foldCount := wr.2.length
  let foldBits := IntLog2 foldCount
  { Bins := wr.1
    Indices := List.range wr.1.length
    CurrentDepth := 0
    FoldCount := foldCount
    FoldBits := foldBits
    PartitionsSize := 2 ^ (foldBits + maxDepth) }

/-- The searcher configuration used by the C1 counterexample: three
fold-based tasks (each with one learn and one test document), no single-task
target. -/
def threeTaskSearcher : TObliviousTreeStructureSearcher :=
  ⟨[(1, 1), (1, 1), (1, 1)], none⟩

/-- Whether an `Except` computation succeeded (a `CB_ENSURE` chain did not
abort). -/
def exceptIsOk : Except ε α → Bool
  | .ok _ => true
  | .error _ => false

/-- Modelled from the spec: `TObliviousTreeStructure` (oblivious_model.h, not
among the given sources) — the ordered, append-only sequence of applied
binary splits (spec 3: Tree Structure). -/
structure TObliviousTreeStructure where
  Splits : List TBinarySplit
deriving DecidableEq, Repr

/-- Modelled from the spec: `TObliviousTreeStructure::HasSplit`
(oblivious_model.h, not among the given sources) — whether the given split
already exists in the structure (spec 4.5f: "if the chosen split already
exists in the Tree Structure"). -/
def TObliviousTreeStructure.HasSplit (t : TObliviousTreeStructure)
    (s : TBinarySplit) : Bool :=
  decide (s ∈ t.Splits)

/-- The depth loop of `Fit` (searcher lines 287-445), abstracted over
everything that determines one iteration's winning split: `chooser` maps the
splits applied so far (`result.Splits`, which with the per-tree data and
random stream determines all scores) to the iteration's `bestSplit`.  The
first argument is the number of remaining depth iterations (`Fit` starts it
at `maxDepth`).  If `result.HasSplit(bestSplit)` the loop breaks without
appending (lines 415-417); otherwise the split is appended (line 441) and
the next depth runs.  The second component of the result counts the depth
iterations entered. -/
def fitDepthLoop (chooser : List TBinarySplit → TBinarySplit) :
    Nat → List TBinarySplit → List TBinarySplit × Nat
  | 0, res => (res, 0)
  | n + 1, res =>
    if (TObliviousTreeStructure.mk res).HasSplit (chooser res) then (res, 1)
    else
      ((fitDepthLoop chooser n (res ++ [chooser res])).1,
       (fitDepthLoop chooser n (res ++ [chooser res])).2 + 1)

/-- The tree produced by `Fit`'s depth loop (lines 282, 287-445, 454): the
loop starting from the empty structure with `maxDepth` remaining
iterations, paired with the number of depth iterations that ran. -/
def FitSplits (chooser : List TBinarySplit → TBinarySplit) (maxDepth : Nat) :
    TObliviousTreeStructure × Nat :=
  (⟨(fitDepthLoop chooser maxDepth []).1⟩, (fitDepthLoop chooser maxDepth []).2)

/-- The splits accumulated by the first `d` appending iterations of the
depth loop: iteration `k` appends `chooser` of the state before it. -/
def chosenSplits (chooser : List TBinarySplit → TBinarySplit) : Nat → List TBinarySplit
  | 0 => []
  | d + 1 => chosenSplits chooser d ++ [chooser (chosenSplits chooser d)]

/-- The chooser of the C2 witness: every depth picks the same split. -/
def constChooser : List TBinarySplit → TBinarySplit :=
  fun _ => ⟨0, 0, EBinSplitType.TakeGreater⟩

/-- The fixed part of the fatal message of the `CB_ENSURE` at `Fit`
line 393. -/
def bestSplitNaNMsgText : String :=
  "Error: something went wrong, best split is NaN with score"

/-- The sentinel feature id `static_cast<ui32>(-1)` returned by a score
helper when no candidate features exist. -/
def sentinelFeatureId : Nat := 4294967295

/-- The `CB_ENSURE(bestSplitProp.FeatureId != static_cast<ui32>(-1), ...)`
check of `Fit` (line 393), applied to the winning split after the static
best-of-3 reduction (lines 332-334) and any tree-CTR visitor supersession
(lines 385-389): on the sentinel it aborts with the fatal message before the
split is applied; otherwise the winning split flows on to be applied
(lines 395-426). -/
def ensureBestSplitFound (p : TBestSplitProperties) :
    Except String TBestSplitProperties :=
  if p.FeatureId = sentinelFeatureId then
    .error (bestSplitNaNMsgText ++ toString p.Score)
  else .ok p

/-- Modelled from the spec: the Features Manager's CTR registry (spec 6:
`IsKnown(tensor) -> bool`, `AddCtr(tensor, borders) -> id`, `GetId`,
`GetBorders`; spec 3 and 5: value-identity keys, at-most-once registration,
only Features Manager state persists across iterations).  The manager class
(`TBinarizedFeaturesManager`) lives outside the given sources; only the
registry the searcher touches is modelled — the ordered list of registered
`(ctr, borders)` entries, a CTR's id being the position of its first
occurrence. -/
structure TBinarizedFeaturesManager where
  KnownCtrs : List (TCtr × List ℚ)
deriving DecidableEq, Repr

/-- Modelled from the spec: `IsKnown(tensor)` — whether the CTR identity is
registered. -/
def TBinarizedFeaturesManager.IsKnown (fm : TBinarizedFeaturesManager)
    (c : TCtr) : Bool :=
  fm.KnownCtrs.any fun e => decide (e.1 = c)

/-- Modelled from the spec: `AddCtr(tensor, borders)` — appends a new entry
to the registry. -/
def TBinarizedFeaturesManager.AddCtr (fm : TBinarizedFeaturesManager)
    (c : TCtr) (borders : List ℚ) : TBinarizedFeaturesManager :=
  ⟨fm.KnownCtrs ++ [(c, borders)]⟩

/-- Modelled from the spec: `GetId(tensor)` — the stable feature id of a
registered CTR, its position in the registry. -/
def TBinarizedFeaturesManager.GetId (fm : TBinarizedFeaturesManager)
    (c : TCtr) : Nat :=
  fm.KnownCtrs.findIdx fun e => decide (e.1 = c)

/-- Modelled from the spec: `GetBorders(id)` — the stored borders of the
feature with the given id. -/
def TBinarizedFeaturesManager.GetBorders (fm : TBinarizedFeaturesManager)
    (id : Nat) : List ℚ :=
  (fm.KnownCtrs.getD id default).2

/-- The at-most-once registration invariant (spec 3): no CTR identity occurs
twice in the registry. -/
def TBinarizedFeaturesManager.AtMostOnceRegistered
    (fm : TBinarizedFeaturesManager) : Prop :=
  (fm.KnownCtrs.map Prod.fst).Nodup

/-- The attributes of a per-device tree-CTR data set that the visitor reads:
`GetCtrs()` (the hosted CTR identities), `GetDeviceId()`, the base tensor's
hash (`GetBaseTensor().GetHash()`, line 87), and the per-feature border
values `ReadBorders` returns from the device. -/
structure TTreeCtrDataSet where
  Ctrs : List TCtr
  DeviceId : Nat
  BaseTensorHash : Nat
  Borders : List (List ℚ)
deriving DecidableEq, Repr

/-- `TTreeCtrDataSet::ReadBorders(ids)` as consumed by `CacheCtrBorders`
(line 80): the `(ctr, borders)` map for the given ctr indices. -/
def TTreeCtrDataSet.ReadBordersMap (ds : TTreeCtrDataSet) (ids : List Nat) :
    List (TCtr × List ℚ) :=
  ids.map fun i => (ds.Ctrs.getD i default, ds.Borders.getD i [])

/-- The mutable best-candidate state of `TTreeCtrDataSetVisitor`
(lines 196-212).  `BestScore` is seeded by `SetBestScore` before any
`Accept` runs (`Fit` line 357), so the `+infinity` written by the
constructor is never observed and scores stay rational; `BestBin` starts at
`static_cast<ui32>(-1)` and `BestDevice` at `-1` (lines 47-48).
`BestSplits[dev]` holds the compressed split bitset materialized for an
improving candidate, abstracted to the `(featureId, binId)` pair the bitset
encodes; `BestBorders[dev]` holds the borders read back for an improving
candidate whose CTR is not yet registered. -/
structure TTreeCtrDataSetVisitor where
  BestScore : ℚ
  BestBin : Nat
  BestDevice : Int
  BestCtr : TCtr
  BestBorders : List (List ℚ)
  BestSplits : List (Option (Nat × Nat))
deriving DecidableEq, Repr

/-- `TTreeCtrDataSetVisitor::SetBestScore` (lines 55-58). -/
def TTreeCtrDataSetVisitor.SetBestScore (st : TTreeCtrDataSetVisitor)
    (score : ℚ) : TTreeCtrDataSetVisitor :=
  { st with BestScore := score }

/-- The visitor as constructed (lines 38-53) and then seeded with the static
best score via `SetBestScore` (`Fit` line 357): `BestBin = 2^32 - 1`,
`BestDevice = -1`, one empty slot per device. -/
def SeededVisitor (deviceCount : Nat) (score : ℚ) : TTreeCtrDataSetVisitor :=
  TTreeCtrDataSetVisitor.SetBestScore
    ⟨0, 4294967295, -1, default,
      List.replicate deviceCount [], List.replicate deviceCount none⟩ score

/-- `TTreeCtrDataSetVisitor::HasSplit` (lines 69-71): `BestDevice >= 0`. -/
def TTreeCtrDataSetVisitor.HasSplit (st : TTreeCtrDataSetVisitor) : Bool :=
  decide (0 ≤ st.BestDevice)

/-- `TTreeCtrDataSetVisitor::UpdateBestSplit` (lines 155-194).  Under the
lock: if the candidate score is strictly below `BestScore`, replace the best
(score, bin, device, ctr); otherwise return with no change.  Then, outside
the lock and only on the improving path, materialize the compressed split
for the winning (feature, bin) into `BestSplits[dev]` and, if the CTR is
not yet registered with the Features Manager, read its borders back into
`BestBorders[dev]`.  The `CB_ENSURE(binId < BestBorders[dev].size())`
device-data validation and the buffer allocation sizes are outside the
model. -/
def TTreeCtrDataSetVisitor.UpdateBestSplit (fm : TBinarizedFeaturesManager)
    (st : TTreeCtrDataSetVisitor) (dataSet : TTreeCtrDataSet)
    (p : TBestSplitProperties) : TTreeCtrDataSetVisitor :=
  if p.Score < st.BestScore then
    let dev := dataSet.DeviceId
    let ctr := dataSet.Ctrs.getD p.FeatureId default
    { st with
      BestScore := p.Score
      BestBin := p.BinId
      BestDevice := Int.ofNat dev
      BestCtr := ctr
      BestSplits := st.BestSplits.set dev (some (p.FeatureId, p.BinId))
      BestBorders := if fm.IsKnown ctr then st.BestBorders
        else st.BestBorders.set dev (dataSet.Borders.getD p.FeatureId []) }
  else st

/-- `TTreeCtrDataSetVisitor::IsNeedToCacheBorders` (lines 151-153):
`GetSplits().size() == 0 && GetCatFeatures().size() <
GetMaxCtrComplexityForBordersCaching()`; the configured threshold is the
`maxComplexity` parameter. -/
def TTreeCtrDataSetVisitor.IsNeedToCacheBorders (maxComplexity : Nat)
    (ctr : TCtr) : Bool :=
  decide (ctr.FeatureTensor.Splits.length = 0)
    && decide (ctr.FeatureTensor.CatFeatures.length < maxComplexity)

/-- `TTreeCtrDataSetVisitor::GetCtrsBordersToCacheIds` (lines 140-149): the
indices `i < ctrs.size()` whose CTR needs border caching, in order. -/
def TTreeCtrDataSetVisitor.GetCtrsBordersToCacheIds (maxComplexity : Nat)
    (ctrs : List TCtr) : List Nat :=
  (List.range ctrs.length).filter fun i =>
    TTreeCtrDataSetVisitor.IsNeedToCacheBorders maxComplexity (ctrs.getD i default)

/-- `TTreeCtrDataSetVisitor::CacheCtrBorders` (lines 127-138): for each map
entry whose CTR is not yet known, register it (under the lock; the
`Y_ASSERT(!IsKnown)` re-check documents that no other thread can add the
same CTR in between). -/
def TTreeCtrDataSetVisitor.CacheCtrBorders (fm : TBinarizedFeaturesManager)
    (bordersMap : List (TCtr × List ℚ)) : TBinarizedFeaturesManager :=
  bordersMap.foldl
    (fun acc e => if acc.IsKnown e.1 then acc else acc.AddCtr e.1 e.2) fm

/-- The border-caching phase at the head of `Accept` (lines 77-82): compute
the cache ids and, if any, read those borders back and cache them. -/
def TTreeCtrDataSetVisitor.AcceptBorderCachingPhase (maxComplexity : Nat)
    (fm : TBinarizedFeaturesManager) (ds : TTreeCtrDataSet) :
    TBinarizedFeaturesManager :=
  if (TTreeCtrDataSetVisitor.GetCtrsBordersToCacheIds maxComplexity ds.Ctrs).length ≠ 0 then
    TTreeCtrDataSetVisitor.CacheCtrBorders fm
      (ds.ReadBordersMap
        (TTreeCtrDataSetVisitor.GetCtrsBordersToCacheIds maxComplexity ds.Ctrs))
  else fm

/-- `TTreeCtrDataSetVisitor::EnsureHasBestProps` (lines 122-125):
`CB_ENSURE(BestDevice >= 0, "Error: no good split in visitor found")` then
`CB_ENSURE(BestBin <= 255)` (whose default message is the condition text). -/
def TTreeCtrDataSetVisitor.EnsureHasBestProps (st : TTreeCtrDataSetVisitor) :
    Except String Unit :=
  if 0 ≤ st.BestDevice then
    if st.BestBin ≤ 255 then .ok ()
    else .error "BestBin <= 255"
  else .error "Error: no good split in visitor found"

/-- `TTreeCtrDataSetVisitor::CreateBestSplitProperties` (lines 100-114):
after `EnsureHasBestProps`, register `BestCtr` with the Features Manager if
it is not yet known (using the borders read back on the best device), then
publish `(GetId(BestCtr), BestBin, BestScore)`; the updated manager is
returned alongside.  The debug `Y_ASSERT` on the bin id is outside the
model. -/
def TTreeCtrDataSetVisitor.CreateBestSplitProperties
    (st : TTreeCtrDataSetVisitor) (fm : TBinarizedFeaturesManager) :
    Except String (TBestSplitProperties × TBinarizedFeaturesManager) :=
  match st.EnsureHasBestProps with
  | .error e => .error e
  | .ok _ =>
    let fm2 := if fm.IsKnown st.BestCtr then fm
      else fm.AddCtr st.BestCtr (st.BestBorders.getD st.BestDevice.toNat [])
    .ok (⟨fm2.GetId st.BestCtr, st.BestBin, st.BestScore⟩, fm2)

/-- `TTreeCtrDataSetVisitor::GetBestSplitBits` (lines 116-119): after
`EnsureHasBestProps`, the compressed split materialized on the best
device. -/
def TTreeCtrDataSetVisitor.GetBestSplitBits (st : TTreeCtrDataSetVisitor) :
    Except String (Option (Nat × Nat)) :=
  match st.EnsureHasBestProps with
  | .error e => .error e
  | .ok _ => .ok (st.BestSplits.getD st.BestDevice.toNat none)

/-- The per-device seed written by `SetScoreStdDevAndSeed` (line 64):
`Seeds[i] = seed + 664525 * i + 1013904223` with `seed : ui64` and
`i : ui32` — by the C++ arithmetic conversions the literal `664525` is
`int`, so the product `664525 * i` is computed in 32-bit unsigned
arithmetic, and the two additions are 64-bit. -/
def deviceSeedOf (seed i : Nat) : Nat :=
  (seed + (664525 * i) % 2 ^ 32 + 1013904223) % 2 ^ 64

/-- `TTreeCtrDataSetVisitor::SetScoreStdDevAndSeed` (lines 60-67): the
`Seeds` vector after the loop over all device indices
(`i < Seeds.size() = deviceCount`). -/
def SetScoreStdDevAndSeed (deviceCount : Nat) (seed : Nat) : List Nat :=
  (List.range deviceCount).map (deviceSeedOf seed)

/-- The per-task noise seed of `Accept` (line 87):
`Seeds[ctrDataSet.GetDeviceId()] + ctrDataSet.GetBaseTensor().GetHash()`
in `ui64` arithmetic. -/
def acceptTaskSeed (seeds : List Nat) (ds : TTreeCtrDataSet) : Nat :=
  (seeds.getD ds.DeviceId 0 + ds.BaseTensorHash) % 2 ^ 64

/-- A sequence of `Accept` calls at the best-tracking level: each visited
data set contributes the optimal-split triple its score helper returned
(`ReadAndRemapOptimalSplit()`, line 97), consumed by `UpdateBestSplit`
(line 95). -/
def foldAccepts (fm : TBinarizedFeaturesManager) (st : TTreeCtrDataSetVisitor) :
    List (TTreeCtrDataSet × TBestSplitProperties) → TTreeCtrDataSetVisitor
  | [] => st
  | (ds, p) :: rest => foldAccepts fm (st.UpdateBestSplit fm ds p) rest

/-- Whether some candidate of the sequence scores strictly below the best
score current at its own `Accept` call. -/
def ExistsImprovement (fm : TBinarizedFeaturesManager)
    (st : TTreeCtrDataSetVisitor) :
    List (TTreeCtrDataSet × TBestSplitProperties) → Bool
  | [] => false
  | (ds, p) :: rest =>
    decide (p.Score < st.BestScore)
      || ExistsImprovement fm (st.UpdateBestSplit fm ds p) rest

/-- The CTR of the C6 counterexample: one categorical feature, but a
non-empty binary-split component in its tensor. -/
def c6Ctr : TCtr := ⟨⟨[0], [⟨0, 0, EBinSplitType.TakeGreater⟩]⟩, 0⟩

-- ===================== theorems =====================

theorem getTargetClassLoop_spec (gt : α → α → Bool) (t : α) (borders : List α) :
    ∀ fuel i, borders.length - i ≤ fuel →
      TTargetClassifier.GetTargetClassLoop gt t borders i
        = i + ((borders.drop i).takeWhile (fun b => gt t b)).length := by
  intro fuel
  induction fuel with
  | zero =>
    intro i hi
    have hlen : borders.length ≤ i := by omega
    unfold TTargetClassifier.GetTargetClassLoop
    rw [dif_neg (by omega), List.drop_eq_nil_of_le hlen]
    simp
  | succ n ih =>
    intro i hi
    unfold TTargetClassifier.GetTargetClassLoop
    by_cases h : i < borders.length
    · rw [dif_pos h]
      have hdrop : borders.drop i = borders.get ⟨i, h⟩ :: borders.drop (i + 1) :=
        List.drop_eq_getElem_cons h
      by_cases hg : gt t (borders.get ⟨i, h⟩) = true
      · rw [if_pos hg, ih (i + 1) (by omega), hdrop, List.takeWhile_cons]
        simp only [hg, if_true, List.length_cons]
        omega
      · rw [if_neg hg, hdrop, List.takeWhile_cons]
        simp only [Bool.not_eq_true] at hg
        have hg2 : gt t borders[i] = false := by simpa using hg
        simp [hg2]
    · rw [dif_neg h]
      rw [List.drop_eq_nil_of_le (by omega)]
      simp

/-- C10: for every borders vector and every target value under an arbitrary
Boolean `>` comparison (hence in particular for IEEE doubles, including NaN
and infinities), `GetTargetClass` terminates (it is a total function) and
returns the length of the longest prefix of `Borders` whose elements are each
strictly below the target; the result is at most `Borders.length`, i.e. at
most `GetClassesCount - 1`, and `GetClassesCount` is `Borders.length + 1`. -/
theorem C10_getTargetClass (gt : α → α → Bool) (t : α) (c : TTargetClassifier α) :
    c.GetTargetClass gt t = (c.Borders.takeWhile (fun b => gt t b)).length
      ∧ c.GetTargetClass gt t ≤ c.Borders.length
      ∧ c.GetClassesCount = c.Borders.length + 1
      ∧ c.GetTargetClass gt t ≤ c.GetClassesCount - 1 := by
  have hmain : c.GetTargetClass gt t
      = (c.Borders.takeWhile (fun b => gt t b)).length := by
    have h := getTargetClassLoop_spec gt t c.Borders c.Borders.length 0 (by omega)
    simpa [TTargetClassifier.GetTargetClass] using h
  have hle : (c.Borders.takeWhile (fun b => gt t b)).length ≤ c.Borders.length :=
    (c.Borders.takeWhile_sublist _).length_le
  refine ⟨hmain, by omega, rfl, ?_⟩
  simp only [TTargetClassifier.GetClassesCount]
  omega

theorem bitWidthFuel_pow_sub_one :
    ∀ fuel k, k ≤ fuel → bitWidthFuel fuel (2 ^ k - 1) = k := by
  intro fuel
  induction fuel with
  | zero =>
    intro k hk
    interval_cases k
    rfl
  | succ n ih =>
    intro k hk
    match k with
    | 0 => rfl
    | k' + 1 =>
      have hpow : 2 ^ (k' + 1) = 2 * 2 ^ k' := by ring
      have hpos : 1 ≤ 2 ^ k' := Nat.one_le_two_pow
      have hne : 2 ^ (k' + 1) - 1 ≠ 0 := by omega
      have hdiv : (2 ^ (k' + 1) - 1) / 2 = 2 ^ k' - 1 := by omega
      calc bitWidthFuel (n + 1) (2 ^ (k' + 1) - 1)
          = bitWidthFuel n ((2 ^ (k' + 1) - 1) / 2) + 1 := by
            simp [bitWidthFuel, hne]
        _ = bitWidthFuel n (2 ^ k' - 1) + 1 := by rw [hdiv]
        _ = k' + 1 := by rw [ih k' (by omega)]

theorem IntLog2_pow (k : Nat) : IntLog2 (2 ^ k) = k := by
  have hk : k ≤ 2 ^ k := Nat.le_of_lt (Nat.lt_two_pow k)
  exact bitWidthFuel_pow_sub_one (2 ^ k) k hk

theorem writeFoldBasedInitialBinsLoop_parts_length :
    ∀ (ts : List (Nat × Nat)) (cursor currentBin : Nat),
      (writeFoldBasedInitialBinsLoop ts cursor currentBin).2.length = 2 * ts.length := by
  intro ts
  induction ts with
  | nil => intro cursor currentBin; rfl
  | cons task rest ih =>
    intro cursor currentBin
    obtain ⟨learn, test⟩ := task
    simp only [writeFoldBasedInitialBinsLoop, List.length_cons, ih, List.length_cons]
    omega

/-- C1 (amended): the partitions table allocated by `CreateSubsets` holds
`2 ^ (IntLog2 foldCount + maxDepth)` partitions, where `foldCount` is the
number of partitions returned by the initial-bin writer — `2` per fold-based
task, or `1` in single-task mode — and `IntLog2` is the ceiling of `log2`.
This equals `foldCount * 2 ^ maxDepth` whenever `foldCount` is a power of
two (in particular always in single-task mode), but not in general. -/
theorem C1_partitions_sizing (ts : List (Nat × Nat)) (sz maxDepth k : Nat) :
    ((TObliviousTreeStructureSearcher.mk ts none).CreateSubsets maxDepth).FoldCount
        = 2 * ts.length
    ∧ ((TObliviousTreeStructureSearcher.mk ts none).CreateSubsets maxDepth).PartitionsSize
        = 2 ^ (IntLog2 (2 * ts.length) + maxDepth)
    ∧ ((TObliviousTreeStructureSearcher.mk ts (some sz)).CreateSubsets maxDepth).FoldCount
        = 1
    ∧ ((TObliviousTreeStructureSearcher.mk ts (some sz)).CreateSubsets maxDepth).PartitionsSize
        = 1 * 2 ^ maxDepth
    ∧ (2 * ts.length = 2 ^ k →
        ((TObliviousTreeStructureSearcher.mk ts none).CreateSubsets maxDepth).PartitionsSize
          = (2 * ts.length) * 2 ^ maxDepth) := by
  have hparts : ((TObliviousTreeStructureSearcher.mk ts none).CreateSubsets
      maxDepth).FoldCount = 2 * ts.length := by
    simp [TObliviousTreeStructureSearcher.CreateSubsets,
      TObliviousTreeStructureSearcher.WriteFoldBasedInitialBins,
      writeFoldBasedInitialBinsLoop_parts_length]
  have hsize : ((TObliviousTreeStructureSearcher.mk ts none).CreateSubsets
      maxDepth).PartitionsSize = 2 ^ (IntLog2 (2 * ts.length) + maxDepth) := by
    simp [TObliviousTreeStructureSearcher.CreateSubsets,
      TObliviousTreeStructureSearcher.WriteFoldBasedInitialBins,
      writeFoldBasedInitialBinsLoop_parts_length]
  refine ⟨hparts, hsize, rfl, ?_, ?_⟩
  · have h1 : IntLog2 1 = 0 := rfl
    simp [TObliviousTreeStructureSearcher.CreateSubsets,
      TObliviousTreeStructureSearcher.WriteSingleTaskInitialBins, h1]
  · intro hpow
    rw [hsize, hpow, IntLog2_pow, pow_add]

/-- Witness for `C1_partitions_sizing`, at one fold-based task (so
`foldCount = 2 = 2^1`), a single-task size of 5, `maxDepth = 2`. -/
theorem C1_partitions_sizing_witness :
    ((TObliviousTreeStructureSearcher.mk [(1, 1)] none).CreateSubsets 2).FoldCount = 2
    ∧ ((TObliviousTreeStructureSearcher.mk [(1, 1)] none).CreateSubsets 2).PartitionsSize
        = 2 ^ (IntLog2 2 + 2)
    ∧ ((TObliviousTreeStructureSearcher.mk [(1, 1)] (some 5)).CreateSubsets 2).FoldCount = 1
    ∧ ((TObliviousTreeStructureSearcher.mk [(1, 1)] (some 5)).CreateSubsets 2).PartitionsSize
        = 1 * 2 ^ 2
    ∧ ((TObliviousTreeStructureSearcher.mk [(1, 1)] none).CreateSubsets 2).PartitionsSize
        = 2 * 2 ^ 2 := by
  have h := C1_partitions_sizing [(1, 1)] 5 2 1
  exact ⟨h.1, h.2.1, h.2.2.1, h.2.2.2.1, h.2.2.2.2 (by decide)⟩

/-- C1 counterexample: with three fold-based tasks the initial-bin writer
returns `foldCount = 6` partitions, but the partitions table is sized
`2 ^ (IntLog2 6 + 1) = 16` at `maxDepth = 1`, not `6 * 2 ^ 1 = 12`: the
addressable partition count is not `foldCount * 2 ^ maxDepth` for every run. -/
theorem C1_counterexample :
    (threeTaskSearcher.CreateSubsets 1).FoldCount = 6
    ∧ (threeTaskSearcher.CreateSubsets 1).PartitionsSize = 16
    ∧ (threeTaskSearcher.CreateSubsets 1).PartitionsSize
        ≠ (threeTaskSearcher.CreateSubsets 1).FoldCount * 2 ^ 1 := by
  decide

theorem addTaskSeq_from_none (ts : List (Nat × Nat)) :
    ∀ fb, TObliviousTreeStructureSearcher.AddTaskSeq ⟨fb, none⟩ ts
      = .ok ⟨fb ++ ts, none⟩ := by
  induction ts with
  | nil =>
    intro fb
    simp [TObliviousTreeStructureSearcher.AddTaskSeq]
  | cons t rest ih =>
    intro fb
    obtain ⟨l, r⟩ := t
    simp [TObliviousTreeStructureSearcher.AddTaskSeq,
      TObliviousTreeStructureSearcher.AddTask, ih]

/-- C9: mixing the two task modes is a fatal precondition violation.
`AddTask` succeeds iff no single-task target was set (line 237), and aborts
with the mixing message otherwise; `SetTarget` succeeds iff no single-task
target was set and no fold-based task was added (lines 244-245), with the
corresponding messages otherwise; `Fit`'s entry check (line 256) succeeds
iff one of the two modes is configured; any sequence of only `AddTask`
calls from a fresh searcher succeeds, and exactly one `SetTarget` from a
fresh searcher succeeds. -/
theorem C9_task_mode_preconditions (s : TObliviousTreeStructureSearcher)
    (learn test sz : Nat) :
    (exceptIsOk (s.AddTask learn test) = true ↔ s.SingleTaskTarget = none)
    ∧ (s.SingleTaskTarget ≠ none →
        s.AddTask learn test
          = .error "We can't mix learn/test splits and full estimation")
    ∧ (exceptIsOk (s.SetTarget sz) = true ↔
        s.SingleTaskTarget = none ∧ s.FoldBasedTasks = [])
    ∧ (s.SingleTaskTarget ≠ none →
        s.SetTarget sz = .error "Target already was set")
    ∧ (s.SingleTaskTarget = none → s.FoldBasedTasks ≠ [] →
        s.SetTarget sz = .error "Can't mix foldBased and singleTask targets")
    ∧ (s.FitModeCheck = .ok () ↔
        (s.FoldBasedTasks ≠ [] ∨ s.SingleTaskTarget ≠ none))
    ∧ (∀ ts, TObliviousTreeStructureSearcher.AddTaskSeq ⟨[], none⟩ ts
        = .ok ⟨ts, none⟩)
    ∧ TObliviousTreeStructureSearcher.SetTarget ⟨[], none⟩ sz
        = .ok ⟨[], some sz⟩ := by
  obtain ⟨fb, st⟩ := s
  cases st with
  | none =>
    cases fb with
    | nil =>
      simp [TObliviousTreeStructureSearcher.AddTask,
        TObliviousTreeStructureSearcher.SetTarget,
        TObliviousTreeStructureSearcher.FitModeCheck,
        exceptIsOk, addTaskSeq_from_none]
    | cons h t =>
      simp [TObliviousTreeStructureSearcher.AddTask,
        TObliviousTreeStructureSearcher.SetTarget,
        TObliviousTreeStructureSearcher.FitModeCheck,
        exceptIsOk, addTaskSeq_from_none]
  | some v =>
    simp [TObliviousTreeStructureSearcher.AddTask,
      TObliviousTreeStructureSearcher.SetTarget,
      TObliviousTreeStructureSearcher.FitModeCheck,
      exceptIsOk, addTaskSeq_from_none]

/-- Witness for `C9_task_mode_preconditions`, at a searcher holding a
single-task target (so the abort branches fire) and at a fresh searcher. -/
theorem C9_task_mode_preconditions_witness :
    TObliviousTreeStructureSearcher.AddTask ⟨[], some 4⟩ 1 2
      = .error "We can't mix learn/test splits and full estimation"
    ∧ TObliviousTreeStructureSearcher.SetTarget ⟨[], some 4⟩ 7
      = .error "Target already was set"
    ∧ TObliviousTreeStructureSearcher.SetTarget ⟨[(1, 2)], none⟩ 7
      = .error "Can't mix foldBased and singleTask targets"
    ∧ TObliviousTreeStructureSearcher.AddTaskSeq ⟨[], none⟩ [(1, 2), (3, 4)]
      = .ok ⟨[(1, 2), (3, 4)], none⟩
    ∧ TObliviousTreeStructureSearcher.SetTarget ⟨[], none⟩ 7
      = .ok ⟨[], some 7⟩ := by
  refine ⟨(C9_task_mode_preconditions ⟨[], some 4⟩ 1 2 7).2.1 (by decide),
    (C9_task_mode_preconditions ⟨[], some 4⟩ 1 2 7).2.2.2.1 (by decide),
    (C9_task_mode_preconditions ⟨[(1, 2)], none⟩ 1 2 7).2.2.2.2.1 (by decide) (by decide),
    (C9_task_mode_preconditions ⟨[], none⟩ 1 2 7).2.2.2.2.2.2.1 [(1, 2), (3, 4)],
    (C9_task_mode_preconditions ⟨[], none⟩ 1 2 7).2.2.2.2.2.2.2⟩

theorem chosenSplits_length (chooser : List TBinarySplit → TBinarySplit) :
    ∀ d, (chosenSplits chooser d).length = d := by
  intro d
  induction d with
  | zero => rfl
  | succ n ih => simp [chosenSplits, ih]

theorem fitDepthLoop_bounds (chooser : List TBinarySplit → TBinarySplit) :
    ∀ n res, (fitDepthLoop chooser n res).1.length ≤ res.length + n
      ∧ (fitDepthLoop chooser n res).2 ≤ n := by
  intro n
  induction n with
  | zero => intro res; simp [fitDepthLoop]
  | succ m ih =>
    intro res
    by_cases h : (TObliviousTreeStructure.mk res).HasSplit (chooser res) = true
    · simp only [fitDepthLoop, if_pos h]
      constructor
      · omega
      · omega
    · simp only [fitDepthLoop, if_neg h]
      have h2 := ih (res ++ [chooser res])
      simp only [List.length_append, List.length_cons, List.length_nil] at h2
      constructor
      · omega
      · omega

theorem fitDepthLoop_reach (chooser : List TBinarySplit → TBinarySplit) (d : Nat)
    (hpre : ∀ k, k < d →
      chooser (chosenSplits chooser k) ∉ chosenSplits chooser k)
    (hdup : chooser (chosenSplits chooser d) ∈ chosenSplits chooser d) :
    ∀ m i, i ≤ d → d - i < m →
      fitDepthLoop chooser m (chosenSplits chooser i)
        = (chosenSplits chooser d, d - i + 1) := by
  intro m
  induction m with
  | zero => intro i h1 h2; omega
  | succ n ih =>
    intro i h1 h2
    by_cases hid : i = d
    · subst hid
      have hb : (TObliviousTreeStructure.mk (chosenSplits chooser i)).HasSplit
          (chooser (chosenSplits chooser i)) = true := by
        simpa [TObliviousTreeStructure.HasSplit] using hdup
      simp [fitDepthLoop, hb]
    · have hlt : i < d := by omega
      have hnm : chooser (chosenSplits chooser i) ∉ chosenSplits chooser i :=
        hpre i hlt
      have hb : ¬((TObliviousTreeStructure.mk (chosenSplits chooser i)).HasSplit
          (chooser (chosenSplits chooser i)) = true) := by
        simpa [TObliviousTreeStructure.HasSplit] using hnm
      simp only [fitDepthLoop, if_neg hb]
      have hstep : chosenSplits chooser i ++ [chooser (chosenSplits chooser i)]
          = chosenSplits chooser (i + 1) := rfl
      rw [hstep, ih (i + 1) (by omega) (by omega)]
      have harith : d - (i + 1) + 1 + 1 = d - i + 1 := by omega
      simp [harith]

/-- C2: if at depth `d < maxDepth` the chosen best split already exists
among the splits appended at depths `0..d-1` (and no earlier depth chose a
duplicate), `Fit`'s loop stops without appending: the returned tree has
exactly `d` splits and exactly `d + 1` depth iterations ran, so no depth
beyond `d` is invoked; unconditionally, the loop enters at most `maxDepth`
iterations and the returned tree never has more than `maxDepth` splits. -/
theorem C2_early_stop (chooser : List TBinarySplit → TBinarySplit)
    (maxDepth d : Nat) :
    ((∀ k, k < d → chooser (chosenSplits chooser k) ∉ chosenSplits chooser k) →
      chooser (chosenSplits chooser d) ∈ chosenSplits chooser d →
      d < maxDepth →
      (FitSplits chooser maxDepth).1.Splits = chosenSplits chooser d
        ∧ (FitSplits chooser maxDepth).1.Splits.length = d
        ∧ (FitSplits chooser maxDepth).2 = d + 1)
    ∧ (FitSplits chooser maxDepth).1.Splits.length ≤ maxDepth
    ∧ (FitSplits chooser maxDepth).2 ≤ maxDepth := by
  refine ⟨?_, ?_, ?_⟩
  · intro hpre hdup hlt
    have h := fitDepthLoop_reach chooser d hpre hdup maxDepth 0 (by omega) (by omega)
    have h0 : chosenSplits chooser 0 = [] := rfl
    rw [h0] at h
    constructor
    · simp [FitSplits, h]
    constructor
    · simp [FitSplits, h, chosenSplits_length]
    · simp [FitSplits, h]
  · have h := fitDepthLoop_bounds chooser maxDepth []
    simpa [FitSplits] using h.1
  · have h := fitDepthLoop_bounds chooser maxDepth []
    simpa [FitSplits] using h.2

/-- Witness for `C2_early_stop`: the constant chooser picks the same split
at every depth, so depth 1 re-chooses the depth-0 split and the loop stops
with a 1-split tree after 2 iterations out of `maxDepth = 3`. -/
theorem C2_early_stop_witness :
    (FitSplits constChooser 3).1.Splits = chosenSplits constChooser 1
    ∧ (FitSplits constChooser 3).1.Splits.length = 1
    ∧ (FitSplits constChooser 3).2 = 2
    ∧ (FitSplits constChooser 3).1.Splits.length ≤ 3
    ∧ (FitSplits constChooser 3).2 ≤ 3 := by
  have h := C2_early_stop constChooser 3 1
  have h1 := h.1 (by decide) (by decide) (by decide)
  exact ⟨h1.1, h1.2.1, h1.2.2, h.2.1, h.2.2⟩

/-- C3: if the winning split (after the static best-of-3 reduction and any
CTR-visitor supersession) carries the sentinel feature id
`static_cast<ui32>(-1)`, `Fit` fails fast with the fatal message containing
"best split is NaN" and does not return the split for application; if the
winning feature id is not the sentinel, the split is passed through to be
applied. -/
theorem C3_sentinel_check (p : TBestSplitProperties) :
    (p.FeatureId = sentinelFeatureId →
      ensureBestSplitFound p = .error (bestSplitNaNMsgText ++ toString p.Score)
      ∧ ∃ pre post, (bestSplitNaNMsgText ++ toString p.Score).data
          = pre ++ "best split is NaN".data ++ post)
    ∧ (p.FeatureId ≠ sentinelFeatureId → ensureBestSplitFound p = .ok p) := by
  constructor
  · intro h
    refine ⟨by simp [ensureBestSplitFound, h], ?_⟩
    refine ⟨"Error: something went wrong, ".data,
      " with score".data ++ (toString p.Score).data, ?_⟩
    have hdata : (bestSplitNaNMsgText ++ toString p.Score).data
        = bestSplitNaNMsgText.data ++ (toString p.Score).data := rfl
    rw [hdata]
    have hsplit : bestSplitNaNMsgText.data
        = "Error: something went wrong, ".data ++ "best split is NaN".data
          ++ " with score".data := by decide
    rw [hsplit]
    simp
  · intro h
    simp [ensureBestSplitFound, h]

/-- Witness for `C3_sentinel_check`, at a sentinel winner and at an
ordinary winner with feature id 5. -/
theorem C3_sentinel_check_witness :
    ensureBestSplitFound ⟨5, 0, 0⟩ = .ok ⟨5, 0, 0⟩
    ∧ ensureBestSplitFound ⟨4294967295, 0, 0⟩
        = .error (bestSplitNaNMsgText ++ toString (0 : ℚ))
    ∧ ∃ pre post, (bestSplitNaNMsgText ++ toString (0 : ℚ)).data
        = pre ++ "best split is NaN".data ++ post := by
  refine ⟨(C3_sentinel_check ⟨5, 0, 0⟩).2 (by decide), ?_, ?_⟩
  · exact ((C3_sentinel_check ⟨4294967295, 0, 0⟩).1 (by decide)).1
  · exact ((C3_sentinel_check ⟨4294967295, 0, 0⟩).1 (by decide)).2

theorem ensureHasBestProps_ok_iff (st : TTreeCtrDataSetVisitor) :
    st.EnsureHasBestProps = .ok () ↔ (0 ≤ st.BestDevice ∧ st.BestBin ≤ 255) := by
  unfold TTreeCtrDataSetVisitor.EnsureHasBestProps
  by_cases hd : 0 ≤ st.BestDevice
  · by_cases hb : st.BestBin ≤ 255
    · simp [hd, hb]
    · simp [hd, hb]
  · simp [hd]

theorem getBestSplitBits_ok_propagates (st : TTreeCtrDataSetVisitor) :
    exceptIsOk st.GetBestSplitBits = exceptIsOk st.EnsureHasBestProps := by
  unfold TTreeCtrDataSetVisitor.GetBestSplitBits
  cases hE : st.EnsureHasBestProps with
  | ok u => rfl
  | error e => rfl

theorem createBestSplitProperties_ok_propagates (st : TTreeCtrDataSetVisitor)
    (fm : TBinarizedFeaturesManager) :
    exceptIsOk (st.CreateBestSplitProperties fm) = exceptIsOk st.EnsureHasBestProps := by
  unfold TTreeCtrDataSetVisitor.CreateBestSplitProperties
  cases hE : st.EnsureHasBestProps with
  | ok u => rfl
  | error e => rfl

theorem ensureHasBestProps_isOk_iff (st : TTreeCtrDataSetVisitor) :
    exceptIsOk st.EnsureHasBestProps = true ↔
      (0 ≤ st.BestDevice ∧ st.BestBin ≤ 255) := by
  rw [← ensureHasBestProps_ok_iff]
  cases hE : st.EnsureHasBestProps with
  | ok u => cases u; simp [exceptIsOk]
  | error e => simp [exceptIsOk]

/-- C7: extracting results from a visitor that never found an improving
candidate (`BestDevice < 0`) is a fatal precondition violation with message
"Error: no good split in visitor found", and a resolved best bin id must fit
the single-byte budget (`BestBin <= 255`): `EnsureHasBestProps` aborts in
exactly these two cases, and both result-extraction methods
(`GetBestSplitBits`, `CreateBestSplitProperties`) succeed exactly when
`BestDevice >= 0` and `BestBin <= 255`. -/
theorem C7_ensure_has_best_props (st : TTreeCtrDataSetVisitor)
    (fm : TBinarizedFeaturesManager) :
    (st.EnsureHasBestProps = .ok () ↔ (0 ≤ st.BestDevice ∧ st.BestBin ≤ 255))
    ∧ (st.BestDevice < 0 →
        st.EnsureHasBestProps = .error "Error: no good split in visitor found")
    ∧ (0 ≤ st.BestDevice → 255 < st.BestBin →
        st.EnsureHasBestProps = .error "BestBin <= 255")
    ∧ (exceptIsOk st.GetBestSplitBits = true ↔
        (0 ≤ st.BestDevice ∧ st.BestBin ≤ 255))
    ∧ (exceptIsOk (st.CreateBestSplitProperties fm) = true ↔
        (0 ≤ st.BestDevice ∧ st.BestBin ≤ 255)) := by
  refine ⟨ensureHasBestProps_ok_iff st, ?_, ?_, ?_, ?_⟩
  · intro h
    unfold TTreeCtrDataSetVisitor.EnsureHasBestProps
    rw [if_neg (by omega)]
  · intro h1 h2
    unfold TTreeCtrDataSetVisitor.EnsureHasBestProps
    rw [if_pos h1, if_neg (by omega)]
  · rw [getBestSplitBits_ok_propagates]
    exact ensureHasBestProps_isOk_iff st
  · rw [createBestSplitProperties_ok_propagates]
    exact ensureHasBestProps_isOk_iff st

/-- Witness for `C7_ensure_has_best_props`: a visitor state with
`BestDevice = -1` (never improved) aborts with the no-split message; a
state with `BestDevice = 0` but `BestBin = 300` aborts on the bin budget;
a state with `BestDevice = 0`, `BestBin = 7` passes both extractions. -/
theorem C7_ensure_has_best_props_witness :
    TTreeCtrDataSetVisitor.EnsureHasBestProps ⟨0, 4294967295, -1, default, [], []⟩
      = .error "Error: no good split in visitor found"
    ∧ TTreeCtrDataSetVisitor.EnsureHasBestProps ⟨0, 300, 0, default, [], []⟩
      = .error "BestBin <= 255"
    ∧ exceptIsOk (TTreeCtrDataSetVisitor.GetBestSplitBits
        ⟨0, 7, 0, default, [], []⟩) = true
    ∧ exceptIsOk (TTreeCtrDataSetVisitor.CreateBestSplitProperties
        ⟨0, 7, 0, default, [], []⟩ ⟨[]⟩) = true := by
  refine ⟨(C7_ensure_has_best_props ⟨0, 4294967295, -1, default, [], []⟩ ⟨[]⟩).2.1
      (by decide),
    (C7_ensure_has_best_props ⟨0, 300, 0, default, [], []⟩ ⟨[]⟩).2.2.1
      (by decide) (by decide),
    (C7_ensure_has_best_props ⟨0, 7, 0, default, [], []⟩ ⟨[]⟩).2.2.2.1.mpr
      (by decide),
    (C7_ensure_has_best_props ⟨0, 7, 0, default, [], []⟩ ⟨[]⟩).2.2.2.2.mpr
      (by decide)⟩

theorem updateBestSplit_no_change (fm : TBinarizedFeaturesManager)
    (st : TTreeCtrDataSetVisitor) (ds : TTreeCtrDataSet)
    (p : TBestSplitProperties) (h : ¬ p.Score < st.BestScore) :
    st.UpdateBestSplit fm ds p = st := by
  unfold TTreeCtrDataSetVisitor.UpdateBestSplit
  rw [if_neg h]

theorem updateBestSplit_improves (fm : TBinarizedFeaturesManager)
    (st : TTreeCtrDataSetVisitor) (ds : TTreeCtrDataSet)
    (p : TBestSplitProperties) (h : p.Score < st.BestScore) :
    (st.UpdateBestSplit fm ds p).BestScore = p.Score
    ∧ (st.UpdateBestSplit fm ds p).BestBin = p.BinId
    ∧ (st.UpdateBestSplit fm ds p).BestDevice = Int.ofNat ds.DeviceId
    ∧ (st.UpdateBestSplit fm ds p).BestCtr = ds.Ctrs.getD p.FeatureId default
    ∧ (st.UpdateBestSplit fm ds p).BestSplits
        = st.BestSplits.set ds.DeviceId (some (p.FeatureId, p.BinId))
    ∧ (st.UpdateBestSplit fm ds p).BestBorders
        = (if fm.IsKnown (ds.Ctrs.getD p.FeatureId default) then st.BestBorders
           else st.BestBorders.set ds.DeviceId (ds.Borders.getD p.FeatureId [])) := by
  unfold TTreeCtrDataSetVisitor.UpdateBestSplit
  rw [if_pos h]
  exact ⟨rfl, rfl, rfl, rfl, rfl, rfl⟩

theorem foldAccepts_mono (fm : TBinarizedFeaturesManager) :
    ∀ (cs : List (TTreeCtrDataSet × TBestSplitProperties))
      (st : TTreeCtrDataSetVisitor),
      (foldAccepts fm st cs).BestScore ≤ st.BestScore := by
  intro cs
  induction cs with
  | nil => intro st; simp [foldAccepts]
  | cons c rest ih =>
    intro st
    obtain ⟨ds, p⟩ := c
    simp only [foldAccepts]
    have h2 := ih (st.UpdateBestSplit fm ds p)
    have h3 : (st.UpdateBestSplit fm ds p).BestScore ≤ st.BestScore := by
      by_cases h : p.Score < st.BestScore
      · rw [(updateBestSplit_improves fm st ds p h).1]
        exact le_of_lt h
      · rw [updateBestSplit_no_change fm st ds p h]
    exact le_trans h2 h3

theorem foldAccepts_hasSplit (fm : TBinarizedFeaturesManager) :
    ∀ (cs : List (TTreeCtrDataSet × TBestSplitProperties))
      (st : TTreeCtrDataSetVisitor),
      (foldAccepts fm st cs).HasSplit
        = (st.HasSplit || ExistsImprovement fm st cs) := by
  intro cs
  induction cs with
  | nil => intro st; simp [foldAccepts, ExistsImprovement]
  | cons c rest ih =>
    intro st
    obtain ⟨ds, p⟩ := c
    simp only [foldAccepts, ExistsImprovement]
    rw [ih]
    by_cases h : p.Score < st.BestScore
    · have hupd : (st.UpdateBestSplit fm ds p).HasSplit = true := by
        unfold TTreeCtrDataSetVisitor.HasSplit
        rw [(updateBestSplit_improves fm st ds p h).2.2.1]
        simp
      simp [hupd, h]
    · rw [updateBestSplit_no_change fm st ds p h]
      simp [h]

theorem existsImprovement_iff (fm : TBinarizedFeaturesManager) :
    ∀ (cs : List (TTreeCtrDataSet × TBestSplitProperties))
      (st : TTreeCtrDataSetVisitor),
      ExistsImprovement fm st cs = true ↔
        (foldAccepts fm st cs).BestScore < st.BestScore := by
  intro cs
  induction cs with
  | nil => intro st; simp [ExistsImprovement, foldAccepts]
  | cons c rest ih =>
    intro st
    obtain ⟨ds, p⟩ := c
    simp only [ExistsImprovement, foldAccepts, Bool.or_eq_true, decide_eq_true_eq]
    by_cases h : p.Score < st.BestScore
    · constructor
      · intro _
        have hmono := foldAccepts_mono fm rest (st.UpdateBestSplit fm ds p)
        rw [(updateBestSplit_improves fm st ds p h).1] at hmono
        exact lt_of_le_of_lt hmono h
      · intro _
        exact Or.inl h
    · rw [updateBestSplit_no_change fm st ds p h]
      simpa [h] using ih st

/-- C4: the tree-CTR visitor, seeded via `SetBestScore` with the static best
score, supersedes the static split iff some accepted candidate scored
strictly below the best score seen at its own `Accept`: `UpdateBestSplit`
replaces the tracked best (score, bin, device, ctr) exactly when the
candidate score is strictly below the current `BestScore`; a non-improving
candidate leaves the whole state untouched (so the compressed-split
materialization and border read-back are done only by an improving
candidate, and only an unregistered CTR gets a border read-back);
`HasSplit` after a sequence of `Accept`s on the seeded visitor is true
exactly when at least one improvement occurred, equivalently exactly when
the final `BestScore` dropped below the seed; and `BestScore` never
increases across `Accept` calls. -/
theorem C4_visitor_update_best (fm : TBinarizedFeaturesManager)
    (st : TTreeCtrDataSetVisitor) (ds : TTreeCtrDataSet)
    (p : TBestSplitProperties) :
    (¬ p.Score < st.BestScore → st.UpdateBestSplit fm ds p = st)
    ∧ (p.Score < st.BestScore →
        (st.UpdateBestSplit fm ds p).BestScore = p.Score
        ∧ (st.UpdateBestSplit fm ds p).BestBin = p.BinId
        ∧ (st.UpdateBestSplit fm ds p).BestDevice = Int.ofNat ds.DeviceId
        ∧ (st.UpdateBestSplit fm ds p).BestCtr = ds.Ctrs.getD p.FeatureId default
        ∧ (st.UpdateBestSplit fm ds p).BestSplits
            = st.BestSplits.set ds.DeviceId (some (p.FeatureId, p.BinId))
        ∧ (st.UpdateBestSplit fm ds p).BestBorders
            = (if fm.IsKnown (ds.Ctrs.getD p.FeatureId default) then st.BestBorders
               else st.BestBorders.set ds.DeviceId (ds.Borders.getD p.FeatureId [])))
    ∧ (∀ cs st2, (foldAccepts fm st2 cs).BestScore ≤ st2.BestScore)
    ∧ (∀ cs st2, (foldAccepts fm st2 cs).HasSplit
        = (st2.HasSplit || ExistsImprovement fm st2 cs))
    ∧ (∀ cs deviceCount s,
        ((foldAccepts fm (SeededVisitor deviceCount s) cs).HasSplit = true
          ↔ ExistsImprovement fm (SeededVisitor deviceCount s) cs = true))
    ∧ (∀ cs deviceCount s,
        ((foldAccepts fm (SeededVisitor deviceCount s) cs).HasSplit = true
          ↔ (foldAccepts fm (SeededVisitor deviceCount s) cs).BestScore < s)) := by
  refine ⟨updateBestSplit_no_change fm st ds p,
    updateBestSplit_improves fm st ds p, ?_, ?_, ?_, ?_⟩
  · intro cs st2
    exact foldAccepts_mono fm cs st2
  · intro cs st2
    exact foldAccepts_hasSplit fm cs st2
  · intro cs deviceCount s
    rw [foldAccepts_hasSplit fm cs (SeededVisitor deviceCount s)]
    have hseed : (SeededVisitor deviceCount s).HasSplit = false := rfl
    rw [hseed]
    simp
  · intro cs deviceCount s
    rw [foldAccepts_hasSplit fm cs (SeededVisitor deviceCount s)]
    have hseed : (SeededVisitor deviceCount s).HasSplit = false := rfl
    rw [hseed]
    have hscore : (SeededVisitor deviceCount s).BestScore = s := rfl
    rw [Bool.false_or, existsImprovement_iff fm cs (SeededVisitor deviceCount s), hscore]

/-- Witness for `C4_visitor_update_best`: on a single-device visitor seeded
with static best score 10, a candidate scoring 20 changes nothing, a
candidate scoring 5 replaces the best and registers device 0, and
`HasSplit` after that one `Accept` agrees with the improvement test. -/
theorem C4_visitor_update_best_witness :
    TTreeCtrDataSetVisitor.UpdateBestSplit ⟨[]⟩ (SeededVisitor 1 10)
        ⟨[default], 0, 0, [[1]]⟩ ⟨0, 2, 20⟩ = SeededVisitor 1 10
    ∧ (TTreeCtrDataSetVisitor.UpdateBestSplit ⟨[]⟩ (SeededVisitor 1 10)
        ⟨[default], 0, 0, [[1]]⟩ ⟨0, 2, 5⟩).BestScore = 5
    ∧ (TTreeCtrDataSetVisitor.UpdateBestSplit ⟨[]⟩ (SeededVisitor 1 10)
        ⟨[default], 0, 0, [[1]]⟩ ⟨0, 2, 5⟩).BestDevice = Int.ofNat 0
    ∧ (foldAccepts ⟨[]⟩ (SeededVisitor 1 10)
        [(⟨[default], 0, 0, [[1]]⟩, ⟨0, 2, 5⟩)]).BestScore ≤ 10
    ∧ ((foldAccepts ⟨[]⟩ (SeededVisitor 1 10)
          [(⟨[default], 0, 0, [[1]]⟩, ⟨0, 2, 5⟩)]).HasSplit = true
        ↔ ExistsImprovement ⟨[]⟩ (SeededVisitor 1 10)
          [(⟨[default], 0, 0, [[1]]⟩, ⟨0, 2, 5⟩)] = true) := by
  have h20 := C4_visitor_update_best ⟨[]⟩ (SeededVisitor 1 10)
    ⟨[default], 0, 0, [[1]]⟩ ⟨0, 2, 20⟩
  have h5 := C4_visitor_update_best ⟨[]⟩ (SeededVisitor 1 10)
    ⟨[default], 0, 0, [[1]]⟩ ⟨0, 2, 5⟩
  refine ⟨h20.1 (by decide), (h5.2.1 (by decide)).1,
    (h5.2.1 (by decide)).2.2.1, ?_, ?_⟩
  · exact h5.2.2.1 [(⟨[default], 0, 0, [[1]]⟩, ⟨0, 2, 5⟩)] (SeededVisitor 1 10)
  · exact h5.2.2.2.2.1 [(⟨[default], 0, 0, [[1]]⟩, ⟨0, 2, 5⟩)] 1 10

theorem list_any_findIdx_lt (p : α → Bool) :
    ∀ (l : List α), l.any p = true → l.findIdx p < l.length := by
  intro l
  induction l with
  | nil => intro h; simp at h
  | cons a t ih =>
    intro h
    rw [List.findIdx_cons]
    by_cases hp : p a = true
    · simp [hp]
    · simp only [List.any_cons, Bool.or_eq_true] at h
      have ht : t.any p = true := by
        cases h with
        | inl h1 => exact absurd h1 hp
        | inr h2 => exact h2
      have hlt : t.findIdx p < t.length := ih ht
      simp only [Bool.not_eq_true] at hp
      rw [hp]
      simp only [cond_false, List.length_cons]
      omega

theorem list_findIdx_append_left (p : α → Bool) :
    ∀ (l l2 : List α), l.any p = true → (l ++ l2).findIdx p = l.findIdx p := by
  intro l
  induction l with
  | nil => intro l2 h; simp at h
  | cons a t ih =>
    intro l2 h
    rw [List.cons_append, List.findIdx_cons, List.findIdx_cons]
    by_cases hp : p a = true
    · simp [hp]
    · simp only [List.any_cons, Bool.or_eq_true] at h
      have ht : t.any p = true := by
        cases h with
        | inl h1 => exact absurd h1 hp
        | inr h2 => exact h2
      simp only [Bool.not_eq_true] at hp
      simp [hp, ih l2 ht]

theorem getId_lt_length (fm : TBinarizedFeaturesManager) (c : TCtr)
    (h : fm.IsKnown c = true) : fm.GetId c < fm.KnownCtrs.length :=
  list_any_findIdx_lt _ fm.KnownCtrs h

theorem getId_addCtr_stable (fm : TBinarizedFeaturesManager) (c c2 : TCtr)
    (b : List ℚ) (h : fm.IsKnown c = true) :
    (fm.AddCtr c2 b).GetId c = fm.GetId c :=
  list_findIdx_append_left _ fm.KnownCtrs [(c2, b)] h

theorem getBorders_addCtr_stable (fm : TBinarizedFeaturesManager) (c2 : TCtr)
    (b : List ℚ) (id : Nat) (h : id < fm.KnownCtrs.length) :
    (fm.AddCtr c2 b).GetBorders id = fm.GetBorders id :=
  congrArg Prod.snd (List.getD_append fm.KnownCtrs [(c2, b)] default id h)

theorem isKnown_cacheStep (fm : TBinarizedFeaturesManager) (ce : TCtr)
    (be : List ℚ) (c : TCtr) :
    TBinarizedFeaturesManager.IsKnown
        (if fm.IsKnown ce then fm else fm.AddCtr ce be) c
      = (fm.IsKnown c || decide (ce = c)) := by
  by_cases h : fm.IsKnown ce = true
  · rw [if_pos h]
    by_cases hc : ce = c
    · subst hc
      simp [h]
    · simp [hc]
  · rw [if_neg h]
    simp [TBinarizedFeaturesManager.IsKnown, TBinarizedFeaturesManager.AddCtr,
      List.any_append]

theorem cacheCtrBorders_isKnown (m : List (TCtr × List ℚ)) :
    ∀ (fm : TBinarizedFeaturesManager) (c : TCtr),
      (TTreeCtrDataSetVisitor.CacheCtrBorders fm m).IsKnown c
        = (fm.IsKnown c || m.any fun e => decide (e.1 = c)) := by
  induction m with
  | nil =>
    intro fm c
    simp [TTreeCtrDataSetVisitor.CacheCtrBorders]
  | cons e rest ih =>
    intro fm c
    obtain ⟨ce, be⟩ := e
    have hstep : TTreeCtrDataSetVisitor.CacheCtrBorders fm ((ce, be) :: rest)
        = TTreeCtrDataSetVisitor.CacheCtrBorders
            (if fm.IsKnown ce then fm else fm.AddCtr ce be) rest := rfl
    rw [hstep, ih, isKnown_cacheStep]
    simp [Bool.or_assoc]

theorem cacheStep_preserves_nodup (fm : TBinarizedFeaturesManager) (ce : TCtr)
    (be : List ℚ) (hn : fm.AtMostOnceRegistered) :
    TBinarizedFeaturesManager.AtMostOnceRegistered
      (if fm.IsKnown ce then fm else fm.AddCtr ce be) := by
  by_cases h : fm.IsKnown ce = true
  · rw [if_pos h]; exact hn
  · rw [if_neg h]
    unfold TBinarizedFeaturesManager.AtMostOnceRegistered at *
    unfold TBinarizedFeaturesManager.AddCtr
    have hmem : ce ∉ fm.KnownCtrs.map Prod.fst := by
      intro hc
      rw [List.mem_map] at hc
      obtain ⟨e, he, heq⟩ := hc
      have hk : fm.IsKnown ce = true := by
        unfold TBinarizedFeaturesManager.IsKnown
        rw [List.any_eq_true]
        exact ⟨e, he, by simp [heq]⟩
      exact h hk
    simp only [List.map_append, List.map_cons, List.map_nil]
    rw [List.nodup_append]
    exact ⟨hn, List.nodup_singleton ce, by simp [hmem]⟩

theorem cacheCtrBorders_preserves_nodup (m : List (TCtr × List ℚ)) :
    ∀ (fm : TBinarizedFeaturesManager), fm.AtMostOnceRegistered →
      (TTreeCtrDataSetVisitor.CacheCtrBorders fm m).AtMostOnceRegistered := by
  induction m with
  | nil => intro fm hn; exact hn
  | cons e rest ih =>
    intro fm hn
    obtain ⟨ce, be⟩ := e
    have hstep : TTreeCtrDataSetVisitor.CacheCtrBorders fm ((ce, be) :: rest)
        = TTreeCtrDataSetVisitor.CacheCtrBorders
            (if fm.IsKnown ce then fm else fm.AddCtr ce be) rest := rfl
    rw [hstep]
    exact ih _ (cacheStep_preserves_nodup fm ce be hn)

theorem cacheCtrBorders_stable (m : List (TCtr × List ℚ)) :
    ∀ (fm : TBinarizedFeaturesManager) (c : TCtr), fm.IsKnown c = true →
      (TTreeCtrDataSetVisitor.CacheCtrBorders fm m).GetId c = fm.GetId c
      ∧ (TTreeCtrDataSetVisitor.CacheCtrBorders fm m).GetBorders (fm.GetId c)
          = fm.GetBorders (fm.GetId c) := by
  induction m with
  | nil =>
    intro fm c _
    exact ⟨rfl, rfl⟩
  | cons e rest ih =>
    intro fm c hk
    obtain ⟨ce, be⟩ := e
    have hstep : TTreeCtrDataSetVisitor.CacheCtrBorders fm ((ce, be) :: rest)
        = TTreeCtrDataSetVisitor.CacheCtrBorders
            (if fm.IsKnown ce then fm else fm.AddCtr ce be) rest := rfl
    rw [hstep]
    by_cases h : fm.IsKnown ce = true
    · rw [if_pos h] at *
      exact ih fm c hk
    · rw [if_neg h] at *
      have hk2 : (fm.AddCtr ce be).IsKnown c = true := by
        unfold TBinarizedFeaturesManager.IsKnown TBinarizedFeaturesManager.AddCtr at *
        rw [List.any_append]
        simp [hk]
      have hrec := ih (fm.AddCtr ce be) c hk2
      have hid : (fm.AddCtr ce be).GetId c = fm.GetId c :=
        getId_addCtr_stable fm c ce be hk
      have hlt : fm.GetId c < fm.KnownCtrs.length := getId_lt_length fm c hk
      have hbord : (fm.AddCtr ce be).GetBorders (fm.GetId c)
          = fm.GetBorders (fm.GetId c) :=
        getBorders_addCtr_stable fm ce be (fm.GetId c) hlt
      constructor
      · rw [hrec.1, hid]
      · rw [hid] at hrec
        rw [hrec.2, hbord]

/-- C5: a CTR identity is registered at most once.  The border-caching path
registers only entries whose tensor is not yet known and treats an
already-registered entry as a no-op, never as an error (registration after
`CacheCtrBorders` holds exactly for CTRs known before or present in the
cached map); the best-split publication path calls `AddCtr` only when
`IsKnown` is false at the check, and otherwise leaves the manager
untouched; both paths preserve the no-duplicate-keys invariant of the
registry; and once registered, a CTR's id and stored borders are unchanged
by any later `AddCtr` or `CacheCtrBorders`. -/
theorem C5_ctr_registered_once (fm : TBinarizedFeaturesManager) (c c2 : TCtr)
    (b b2 : List ℚ) (m : List (TCtr × List ℚ)) (st : TTreeCtrDataSetVisitor) :
    (fm.IsKnown c = true → TTreeCtrDataSetVisitor.CacheCtrBorders fm [(c, b)] = fm)
    ∧ ((TTreeCtrDataSetVisitor.CacheCtrBorders fm m).IsKnown c
        = (fm.IsKnown c || m.any fun e => decide (e.1 = c)))
    ∧ (fm.AtMostOnceRegistered →
        (TTreeCtrDataSetVisitor.CacheCtrBorders fm m).AtMostOnceRegistered)
    ∧ (fm.IsKnown st.BestCtr = true → st.EnsureHasBestProps = .ok () →
        st.CreateBestSplitProperties fm
          = .ok (⟨fm.GetId st.BestCtr, st.BestBin, st.BestScore⟩, fm))
    ∧ (fm.IsKnown st.BestCtr = false → st.EnsureHasBestProps = .ok () →
        st.CreateBestSplitProperties fm
          = .ok (⟨(fm.AddCtr st.BestCtr
                (st.BestBorders.getD st.BestDevice.toNat [])).GetId st.BestCtr,
              st.BestBin, st.BestScore⟩,
            fm.AddCtr st.BestCtr (st.BestBorders.getD st.BestDevice.toNat [])))
    ∧ (fm.AtMostOnceRegistered → ∀ p fm2,
        st.CreateBestSplitProperties fm = .ok (p, fm2) → fm2.AtMostOnceRegistered)
    ∧ (fm.IsKnown c = true →
        (fm.AddCtr c2 b2).GetId c = fm.GetId c
        ∧ (fm.AddCtr c2 b2).GetBorders (fm.GetId c) = fm.GetBorders (fm.GetId c)
        ∧ (TTreeCtrDataSetVisitor.CacheCtrBorders fm m).GetId c = fm.GetId c
        ∧ (TTreeCtrDataSetVisitor.CacheCtrBorders fm m).GetBorders (fm.GetId c)
            = fm.GetBorders (fm.GetId c)) := by
  refine ⟨?_, cacheCtrBorders_isKnown m fm c,
    cacheCtrBorders_preserves_nodup m fm, ?_, ?_, ?_, ?_⟩
  · intro h
    simp [TTreeCtrDataSetVisitor.CacheCtrBorders, h]
  · intro hk hok
    unfold TTreeCtrDataSetVisitor.CreateBestSplitProperties
    rw [hok]
    simp [hk]
  · intro hk hok
    unfold TTreeCtrDataSetVisitor.CreateBestSplitProperties
    rw [hok]
    simp [hk]
  · intro hn p fm2 heq
    unfold TTreeCtrDataSetVisitor.CreateBestSplitProperties at heq
    cases hE : st.EnsureHasBestProps with
    | error e =>
      rw [hE] at heq
      exact absurd heq (by simp)
    | ok u =>
      rw [hE] at heq
      by_cases hk : fm.IsKnown st.BestCtr = true
      · simp only [hk, if_true] at heq
        simp only [Except.ok.injEq, Prod.mk.injEq] at heq
        rw [← heq.2]
        exact hn
      · simp only [Bool.not_eq_true] at hk
        simp only [hk, Bool.false_eq_true, if_false] at heq
        simp only [Except.ok.injEq, Prod.mk.injEq] at heq
        rw [← heq.2]
        have h2 := cacheStep_preserves_nodup fm st.BestCtr
          (st.BestBorders.getD st.BestDevice.toNat []) hn
        rw [if_neg (by simp [hk])] at h2
        exact h2
  · intro hk
    have hstable := cacheCtrBorders_stable m fm c hk
    exact ⟨getId_addCtr_stable fm c c2 b2 hk,
      getBorders_addCtr_stable fm c2 b2 (fm.GetId c) (getId_lt_length fm c hk),
      hstable.1, hstable.2⟩

/-- Witness for `C5_ctr_registered_once`: a registry knowing one CTR
(`default`), a visitor publishing the known CTR (manager untouched) and one
publishing a new CTR (one `AddCtr`), a cache call on an already-known entry
(no-op), and id/border stability under later registrations. -/
theorem C5_ctr_registered_once_witness :
    TTreeCtrDataSetVisitor.CacheCtrBorders ⟨[(default, [1])]⟩ [(default, [1])]
      = ⟨[(default, [1])]⟩
    ∧ TTreeCtrDataSetVisitor.CreateBestSplitProperties
        ⟨1, 7, 0, default, [[5]], [none]⟩ ⟨[(default, [1])]⟩
      = .ok (⟨TBinarizedFeaturesManager.GetId ⟨[(default, [1])]⟩ default, 7, 1⟩,
          ⟨[(default, [1])]⟩)
    ∧ TTreeCtrDataSetVisitor.CreateBestSplitProperties
        ⟨1, 7, 0, c6Ctr, [[5]], [none]⟩ ⟨[(default, [1])]⟩
      = .ok (⟨(TBinarizedFeaturesManager.AddCtr ⟨[(default, [1])]⟩ c6Ctr [5]).GetId c6Ctr,
          7, 1⟩,
          TBinarizedFeaturesManager.AddCtr ⟨[(default, [1])]⟩ c6Ctr [5])
    ∧ TBinarizedFeaturesManager.AtMostOnceRegistered
        (TBinarizedFeaturesManager.AddCtr ⟨[(default, [1])]⟩ c6Ctr [5])
    ∧ (TBinarizedFeaturesManager.AddCtr ⟨[(default, [1])]⟩ c6Ctr [2]).GetId default
      = TBinarizedFeaturesManager.GetId ⟨[(default, [1])]⟩ default
    ∧ (TTreeCtrDataSetVisitor.CacheCtrBorders ⟨[(default, [1])]⟩ [(c6Ctr, [3])]).GetBorders
        (TBinarizedFeaturesManager.GetId ⟨[(default, [1])]⟩ default)
      = TBinarizedFeaturesManager.GetBorders ⟨[(default, [1])]⟩
          (TBinarizedFeaturesManager.GetId ⟨[(default, [1])]⟩ default) := by
  have hK := C5_ctr_registered_once ⟨[(default, [1])]⟩ default c6Ctr [1] [2]
    [(c6Ctr, [3])] ⟨1, 7, 0, default, [[5]], [none]⟩
  have hU := C5_ctr_registered_once ⟨[(default, [1])]⟩ default c6Ctr [1] [2]
    [(c6Ctr, [3])] ⟨1, 7, 0, c6Ctr, [[5]], [none]⟩
  have h4 := hK.2.2.2.1 (by decide) rfl
  have h5 := hU.2.2.2.2.1 (by decide) rfl
  have h6 := hU.2.2.2.2.2.1
    (by unfold TBinarizedFeaturesManager.AtMostOnceRegistered; decide) _ _ h5
  have h7 := hK.2.2.2.2.2.2 (by decide)
  exact ⟨hK.1 (by decide), h4, h5, h6, h7.1, h7.2.2.2⟩

/-- C6 (amended): during `Accept`'s border-caching phase a CTR is selected
for caching exactly when its tensor has an empty binary-split component AND
its categorical-feature count is below the configured threshold — the
claim's cat-count condition alone is not the criterion; at the registry
level, a CTR is known after the caching phase exactly when it was known
before or some selected index denotes it. -/
theorem C6_borders_caching_selection (mc : Nat) (ctrs : List TCtr) (i : Nat)
    (fm : TBinarizedFeaturesManager) (ds : TTreeCtrDataSet) (c : TCtr) :
    (i ∈ TTreeCtrDataSetVisitor.GetCtrsBordersToCacheIds mc ctrs ↔
      (i < ctrs.length
        ∧ (ctrs.getD i default).FeatureTensor.Splits = []
        ∧ (ctrs.getD i default).FeatureTensor.CatFeatures.length < mc))
    ∧ ((TTreeCtrDataSetVisitor.AcceptBorderCachingPhase mc fm ds).IsKnown c
        = (fm.IsKnown c
            || (TTreeCtrDataSetVisitor.GetCtrsBordersToCacheIds mc ds.Ctrs).any
                fun j => decide (ds.Ctrs.getD j default = c))) := by
  constructor
  · unfold TTreeCtrDataSetVisitor.GetCtrsBordersToCacheIds
      TTreeCtrDataSetVisitor.IsNeedToCacheBorders
    rw [List.mem_filter, List.mem_range]
    simp [List.length_eq_zero, and_assoc]
  · unfold TTreeCtrDataSetVisitor.AcceptBorderCachingPhase
    by_cases h :
        (TTreeCtrDataSetVisitor.GetCtrsBordersToCacheIds mc ds.Ctrs).length ≠ 0
    · rw [if_pos h, cacheCtrBorders_isKnown]
      unfold TTreeCtrDataSet.ReadBordersMap
      have hmap : ∀ (l : List Nat),
          ((l.map fun j => (ds.Ctrs.getD j default, ds.Borders.getD j [])).any
            fun e => decide (e.1 = c))
            = l.any fun j => decide (ds.Ctrs.getD j default = c) := by
        intro l
        induction l with
        | nil => rfl
        | cons a t ih => simp only [List.map_cons, List.any_cons, ih]
      rw [hmap]
    · rw [if_neg h]
      push_neg at h
      rw [List.length_eq_zero.mp h]
      simp

/-- C6 counterexample: `c6Ctr` has a single categorical feature, below the
threshold 3, yet `GetCtrsBordersToCacheIds` does not select it because its
tensor carries a binary split: selection is not "exactly when the
categorical-feature count is below the threshold". -/
theorem C6_counterexample :
    c6Ctr.FeatureTensor.CatFeatures.length < 3
    ∧ TTreeCtrDataSetVisitor.GetCtrsBordersToCacheIds 3 [c6Ctr] = []
    ∧ ¬ 0 ∈ TTreeCtrDataSetVisitor.GetCtrsBordersToCacheIds 3 [c6Ctr] := by
  refine ⟨by decide, by decide, by decide⟩

theorem seedVectorAt (dc s i : Nat) (h : i < dc) :
    (SetScoreStdDevAndSeed dc s).getD i 0 = deviceSeedOf s i := by
  unfold SetScoreStdDevAndSeed
  rw [List.getD_eq_getElem?_getD, List.getElem?_map, List.getElem?_range h]
  show (some (deviceSeedOf s i)).getD 0 = deviceSeedOf s i
  rw [Option.getD_some]

/-- C8 (amended): the per-device seed written by `SetScoreStdDevAndSeed` is
`(s + (664525 * i) mod 2^32 + 1013904223) mod 2^64` — the product is
computed in 32 bits because the literal `664525` is `int` and `i` is
`ui32`; this agrees with the claim's all-64-bit formula whenever
`664525 * i < 2^32` (i.e. for every device index below 6464, so for every
realistic device count); the per-task noise seed is the device seed plus
the data set's base-tensor hash in 64-bit arithmetic, so the same base seed
and the same device/tensor enumeration reproduce identical task seeds. -/
theorem C8_seed_mixing (dc s i : Nat) (seeds : List Nat) (ds : TTreeCtrDataSet) :
    (i < dc → (SetScoreStdDevAndSeed dc s).getD i 0
        = (s + (664525 * i) % 2 ^ 32 + 1013904223) % 2 ^ 64)
    ∧ (i < dc → 664525 * i < 2 ^ 32 →
        (SetScoreStdDevAndSeed dc s).getD i 0
          = (s + 664525 * i + 1013904223) % 2 ^ 64)
    ∧ acceptTaskSeed seeds ds
        = (seeds.getD ds.DeviceId 0 + ds.BaseTensorHash) % 2 ^ 64 := by
  refine ⟨?_, ?_, rfl⟩
  · intro h
    rw [seedVectorAt dc s i h]
    rfl
  · intro h h2
    rw [seedVectorAt dc s i h]
    unfold deviceSeedOf
    rw [Nat.mod_eq_of_lt h2]

/-- Witness for `C8_seed_mixing`: two devices, base seed 7, device index 1,
and a task seed for device 1 with tensor hash 11. -/
theorem C8_seed_mixing_witness :
    (SetScoreStdDevAndSeed 2 7).getD 1 0
      = (7 + (664525 * 1) % 2 ^ 32 + 1013904223) % 2 ^ 64
    ∧ (SetScoreStdDevAndSeed 2 7).getD 1 0
      = (7 + 664525 * 1 + 1013904223) % 2 ^ 64
    ∧ acceptTaskSeed [3, 5] ⟨[], 1, 11, []⟩ = ([3, 5].getD 1 0 + 11) % 2 ^ 64 := by
  have h := C8_seed_mixing 2 7 1 [3, 5] ⟨[], 1, 11, []⟩
  exact ⟨h.1 (by decide), h.2.1 (by decide) (by decide), h.2.2⟩

/-- C8 counterexample: at device index 6464 the 32-bit product wraps:
`664525 * 6464 = 2^32 + 522304`, so the stored seed (base seed 0) is
`522304 + 1013904223`, not the claim's
`(0 + 664525 * 6464 + 1013904223) mod 2^64`. -/
theorem C8_counterexample :
    (SetScoreStdDevAndSeed 6465 0).getD 6464 0
      ≠ (0 + 664525 * 6464 + 1013904223) % 2 ^ 64 := by
  rw [seedVectorAt 6465 0 6464 (by decide)]
  unfold deviceSeedOf
  decide
